import Mathlib

/-
Verification of the matching-and-lookup engine of the AI Prescription
Verifier (`aimed.py`): drug-name extraction, pairwise interaction
detection, age-banded dosage resolution and alternative-drug resolution.

The Python source is embedded shallowly:
  * `DRUG_DB` / `INTERACTIONS` are the static knowledge base.
  * `extract_drugs` embeds the loop over `DRUG_DB.keys()` testing
    `re.search(rf"\b{drug}\b", text, re.IGNORECASE)`, the optional
    "Alcohol" append, and the order-preserving deduplication loop.
    The regex word test is embedded by `foundWord`: a match of the
    pattern at some position, case-insensitively, with `\b` on both
    sides.  A `\b` next to a letter of the pattern holds when the
    adjacent text character is not a word character (word characters
    are modelled for the ASCII fragment: alphanumerics and underscore,
    as in the regex class `\w`) or the string edge.
  * `find_interactions` embeds the double indexed loop over
    `range(n)` / `range(i+1, n)` with the frozenset-keyed rule lookup.
  * `dosage_suggestions` / `alternatives_for` embed the dict-building
    loops; Python dict assignment is embedded by `dictInsert` on
    association lists (update the existing key in place, else append).
-/

structure DrugRecord where
  dosage_child : String
  dosage_adult : String
  alternative : Option String
deriving DecidableEq

def DRUG_DB : List (String × DrugRecord) :=
  [("Aspirin",
    { dosage_child := "Not recommended"
      dosage_adult := "75–325 mg/day"
      alternative := some "Clopidogrel" }),
   ("Paracetamol",
    { dosage_child := "10–15 mg/kg every 4–6h"
      dosage_adult := "500 mg every 6h"
      alternative := some "Acetaminophen" }),
   ("Ibuprofen",
    { dosage_child := "5–10 mg/kg every 6–8h"
      dosage_adult := "200–400 mg every 6h"
      alternative := some "Naproxen" })]

def kbKeys : List String := DRUG_DB.map Prod.fst

def dbLookup (d : String) : Option DrugRecord :=
  (DRUG_DB.find? fun p => p.1 == d).map Prod.snd

/-- The two interaction rules; a rule key is an unordered pair
(`frozenset` in the source), held here as the pair in definition order. -/
def INTERACTIONS : List ((String × String) × String) :=
  [(("Aspirin", "Ibuprofen"), "↑ GI bleeding risk"),
   (("Paracetamol", "Alcohol"), "↑ Liver toxicity risk")]

/-- Whether the unordered pair behind rule key `(a, b)` equals the
unordered pair `{x, y}` — the `frozenset([x, y]) == frozenset([a, b])`
test used by the dict lookup in the source (both rule keys consist of
two distinct names, so set equality is exactly this disjunction). -/
def ruleMatches (a b x y : String) : Bool :=
  (a == x && b == y) || (a == y && b == x)

def ruleFor (x y : String) : Option String :=
  (INTERACTIONS.find? fun r => ruleMatches r.1.1 r.1.2 x y).map Prod.snd

/-- Word character of the regex class `\w` (ASCII fragment):
alphanumeric or underscore. -/
def isWordChar (c : Char) : Bool := c.isAlphanum || c == '_'

/-- The pattern occurs at position `i` of the text, compared
case-insensitively (`re.IGNORECASE`). -/
def matchesAt (pat text : List Char) (i : Nat) : Bool :=
  decide (i + pat.length ≤ text.length) &&
    ((text.drop i).take pat.length).map Char.toLower == pat.map Char.toLower

/-- `\b` before position `i`, for a pattern starting with a word
character: string edge or a non-word character just before. -/
def boundaryBefore (text : List Char) (i : Nat) : Bool :=
  i == 0 || !isWordChar (text.getD (i - 1) ' ')

/-- `\b` after position `j - 1`, for a pattern ending with a word
character: string edge or a non-word character at `j`. -/
def boundaryAfter (text : List Char) (j : Nat) : Bool :=
  decide (text.length ≤ j) || !isWordChar (text.getD j ' ')

/-- `re.search(rf"\b{re.escape(drug)}\b", text, flags=re.IGNORECASE)`
succeeds: the drug name occurs somewhere in `text` as a whole word,
case-insensitively.  (`re.escape` is the identity on the purely
alphabetic KB names.) -/
def foundWord (drug text : String) : Bool :=
  (List.range (text.data.length + 1)).any fun i =>
    matchesAt drug.data text.data i && boundaryBefore text.data i &&
      boundaryAfter text.data (i + drug.data.length)

/-- The `seen`/`unique` deduplication loop of `extract_drugs`. -/
def dedupSeen : List String → List String → List String
  | _, [] => []
  | seen, d :: ds =>
    if d ∈ seen then dedupSeen seen ds else d :: dedupSeen (d :: seen) ds

/-- The `found` list of `extract_drugs` just before deduplication:
KB keys that match in `text`, in KB enumeration order, then the
"Alcohol" sentinel when requested. -/
def rawFound (text : String) (include_alcohol : Bool) : List String :=
  let found := kbKeys.filter fun drug => foundWord drug text
  if include_alcohol then found ++ ["Alcohol"] else found

def extract_drugs (text : String) (include_alcohol : Bool) : List String :=
  dedupSeen [] (rawFound text include_alcohol)

def find_interactions (drugs : List String) : List String :=
  let n := drugs.length
  (List.range n).flatMap fun i =>
    ((List.range n).drop (i + 1)).filterMap fun j =>
      (ruleFor (drugs.getD i "") (drugs.getD j "")).map fun desc =>
        drugs.getD i "" ++ " + " ++ drugs.getD j "" ++ " → " ++ desc

/-- Python dict assignment `out[k] = v` on an association list:
replace the binding of an existing key, otherwise append. -/
def dictInsert : List (String × String) → String → String → List (String × String)
  | [], k, v => [(k, v)]
  | p :: m, k, v => if p.1 == k then (k, v) :: m else p :: dictInsert m k v

def lookupDict (m : List (String × String)) (k : String) : Option String :=
  (m.find? fun p => p.1 == k).map Prod.snd

def dosage_suggestions (drugs : List String) (age : Int) : List (String × String) :=
  drugs.foldl
    (fun out d =>
      match dbLookup d with
      | some r => dictInsert out d (if age < 18 then r.dosage_child else r.dosage_adult)
      | none => out)
    []

def alternatives_for (drugs : List String) : List (String × String) :=
  drugs.foldl
    (fun out d =>
      match dbLookup d with
      | some r =>
        dictInsert out d
          (match r.alternative with
           | some a => if a == "" then "No alternative" else a
           | none => "No alternative")
      | none => out)
    []

/-- The drug name occurs in the text as a whole word (case-insensitive,
`\b`-delimited on both sides) — the declarative counterpart of the
bounded search `foundWord`. -/
def WordOccurs (drug text : String) : Prop :=
  ∃ i, matchesAt drug.data text.data i = true ∧
    boundaryBefore text.data i = true ∧
    boundaryAfter text.data (i + drug.data.length) = true

/-- Position of the first whole-word occurrence of the drug in the
text, or `length + 1` when it does not occur. -/
def firstOccPos (drug text : String) : Nat :=
  ((List.range (text.data.length + 1)).filter fun i =>
      matchesAt drug.data text.data i && boundaryBefore text.data i &&
        boundaryAfter text.data (i + drug.data.length)).headD
    (text.data.length + 1)

/-- Modelled from the spec: the direct-call contract of the dosage
resolver demanded by the spec (missing from the source, which performs
no range check): an age outside [1,120] is rejected with an
`InvalidAge` condition surfaced to the caller. -/
def dosage_suggestions_checked (drugs : List String) (age : Int) :
    Except String (List (String × String)) :=
  if age < 1 ∨ 120 < age then Except.error "InvalidAge"
  else Except.ok (dosage_suggestions drugs age)

/-- Keep the first occurrence of each element, drop the rest — the
canonical statement of order-preserving deduplication. -/
def keepFirst : List String → List String
  | [] => []
  | d :: l => d :: keepFirst (l.filter fun e => e != d)
termination_by l => l.length
decreasing_by
  simp only [List.length_cons]
  exact Nat.lt_succ_of_le (List.length_filter_le _ _)

/-- All pairs of list elements taken with the lower-index element
first, enumerated i from first to last and j from i+1 to last — the
pair order prescribed for the interaction resolver. -/
def orderedPairs : List String → List (String × String)
  | [] => []
  | d :: ds => (ds.map fun e => (d, e)) ++ orderedPairs ds

/-- Rendering of one candidate pair: the matching rule's description,
formatted with the pair's own order. -/
def renderInteraction (p : String × String) : Option String :=
  (ruleFor p.1 p.2).map fun desc => p.1 ++ " + " ++ p.2 ++ " → " ++ desc

example : extract_drugs "take ASPIRIN and ibuprofen" false = ["Aspirin", "Ibuprofen"] := by decide
example : extract_drugs "Aspirin-like" false = ["Aspirin"] := by decide
example : extract_drugs "Aspirinlike" false = [] := by decide
example : find_interactions ["Aspirin", "Ibuprofen"] = ["Aspirin + Ibuprofen → ↑ GI bleeding risk"] := by decide
example : find_interactions ["Ibuprofen", "Aspirin"] = ["Ibuprofen + Aspirin → ↑ GI bleeding risk"] := by decide
example : dosage_suggestions ["Aspirin"] 17 = [("Aspirin", "Not recommended")] := by decide
example : dosage_suggestions ["Aspirin"] 18 = [("Aspirin", "75–325 mg/day")] := by decide
example : alternatives_for ["Paracetamol", "Alcohol"] = [("Paracetamol", "Acetaminophen")] := by decide

lemma kbKeys_eq : kbKeys = ["Aspirin", "Paracetamol", "Ibuprofen"] := rfl

lemma dedupSeen_eq_self (l : List String) :
    ∀ seen : List String, l.Nodup → (∀ d ∈ l, d ∉ seen) → dedupSeen seen l = l := by
  induction l with
  | nil => intro seen _ _; rfl
  | cons d ds ih =>
    intro seen hnd hdis
    have hd : d ∉ seen := hdis d (List.mem_cons_self d ds)
    simp only [dedupSeen, if_neg hd]
    have hnd' := List.nodup_cons.mp hnd
    refine congrArg (d :: ·) (ih (d :: seen) hnd'.2 ?_)
    intro e he
    rw [List.mem_cons]
    rintro (rfl | hse)
    · exact hnd'.1 he
    · exact hdis e (List.mem_cons_of_mem d he) hse

lemma keepFirst_eq_self (l : List String) (h : l.Nodup) : keepFirst l = l := by
  induction l with
  | nil => rw [keepFirst]
  | cons d ds ih =>
    rw [keepFirst]
    have hnd := List.nodup_cons.mp h
    have hfil : (ds.filter fun e => e != d) = ds := by
      refine List.filter_eq_self.mpr fun e he => ?_
      exact bne_iff_ne.mpr fun hEq => hnd.1 (hEq ▸ he)
    rw [hfil]
    exact congrArg (d :: ·) (ih hnd.2)

lemma filtered_keys_nodup (text : String) :
    (kbKeys.filter fun d => foundWord d text).Nodup :=
  List.Nodup.filter _ (by decide)

lemma alcohol_not_mem_filtered (text : String) :
    "Alcohol" ∉ kbKeys.filter fun d => foundWord d text := by
  intro h
  have : ("Alcohol" : String) ∈ kbKeys := List.mem_of_mem_filter h
  simp [kbKeys_eq] at this

lemma rawFound_nodup (text : String) (flag : Bool) : (rawFound text flag).Nodup := by
  cases flag with
  | false => simpa [rawFound] using filtered_keys_nodup text
  | true =>
    simp only [rawFound, if_pos]
    refine List.Nodup.append (filtered_keys_nodup text) (by decide) ?_
    intro a ha hb
    rw [List.mem_singleton] at hb
    exact alcohol_not_mem_filtered text (hb ▸ ha)

lemma extract_eq_rawFound (text : String) (flag : Bool) :
    extract_drugs text flag = rawFound text flag :=
  dedupSeen_eq_self _ [] (rawFound_nodup text flag) (by simp)

lemma extract_false_eq (text : String) :
    extract_drugs text false = kbKeys.filter fun d => foundWord d text := by
  rw [extract_eq_rawFound]; rfl

lemma extract_true_eq (text : String) :
    extract_drugs text true = (kbKeys.filter fun d => foundWord d text) ++ ["Alcohol"] := by
  rw [extract_eq_rawFound]; rfl

lemma foundWord_iff (drug text : String) :
    foundWord drug text = true ↔ WordOccurs drug text := by
  unfold foundWord WordOccurs
  rw [List.any_eq_true]
  constructor
  · rintro ⟨i, _, h⟩
    rw [Bool.and_eq_true, Bool.and_eq_true] at h
    exact ⟨i, h.1.1, h.1.2, h.2⟩
  · rintro ⟨i, h1, h2, h3⟩
    have hb : i + drug.data.length ≤ text.data.length := by
      have h1' := h1
      unfold matchesAt at h1'
      rw [Bool.and_eq_true] at h1'
      exact of_decide_eq_true h1'.1
    refine ⟨i, List.mem_range.mpr (Nat.lt_succ_of_le
      (le_trans (Nat.le_add_right i _) hb)), ?_⟩
    rw [Bool.and_eq_true, Bool.and_eq_true]
    exact ⟨⟨h1, h2⟩, h3⟩

lemma lookupDict_nil (k : String) : lookupDict [] k = none := rfl

lemma lookupDict_cons (p : String × String) (m : List (String × String)) (k : String) :
    lookupDict (p :: m) k = if p.1 = k then some p.2 else lookupDict m k := by
  unfold lookupDict
  by_cases h : p.1 = k
  · have hb : (p.1 == k) = true := beq_iff_eq.mpr h
    simp [List.find?, hb, h]
  · have hb : (p.1 == k) = false := beq_eq_false_iff_ne.mpr h
    simp [List.find?, hb, h]

lemma lookupDict_dictInsert (m : List (String × String)) (k v q : String) :
    lookupDict (dictInsert m k v) q = if q = k then some v else lookupDict m q := by
  induction m with
  | nil =>
    rw [dictInsert]
    by_cases h : q = k
    · subst h; simp [lookupDict_cons]
    · simp [lookupDict_cons, h, Ne.symm h, lookupDict_nil]
  | cons p m ih =>
    rw [dictInsert]
    by_cases hpk : p.1 = k
    · rw [if_pos (beq_iff_eq.mpr hpk)]
      by_cases hq : q = k
      · subst hq; simp [lookupDict_cons]
      · simp [lookupDict_cons, hpk, hq, Ne.symm hq]
    · rw [if_neg (by simpa using hpk)]
      by_cases hpq : p.1 = q
      · have hqk : ¬q = k := fun hh => hpk (hpq.trans hh)
        simp [lookupDict_cons, hpq, hqk]
      · simp [lookupDict_cons, hpq, ih]

lemma lookupDict_isSome_of_mem (m : List (String × String)) (p : String × String)
    (h : p ∈ m) : (lookupDict m p.1).isSome = true := by
  induction m with
  | nil => simp at h
  | cons q m ih =>
    rw [lookupDict_cons]
    by_cases hq : q.1 = p.1
    · simp [hq]
    · rcases List.mem_cons.mp h with rfl | hm
      · exact absurd rfl hq
      · simp [hq, ih hm]

lemma lookup_kbFold (val : String → DrugRecord → String) (drugs : List String) :
    ∀ (acc : List (String × String)) (k : String),
      lookupDict
        (drugs.foldl
          (fun out d =>
            match dbLookup d with
            | some r => dictInsert out d (val d r)
            | none => out)
          acc) k =
      if k ∈ drugs ∧ (dbLookup k).isSome = true then (dbLookup k).map (val k)
      else lookupDict acc k := by
  induction drugs with
  | nil => intro acc k; simp
  | cons d ds ih =>
    intro acc k
    rw [List.foldl_cons, ih]
    by_cases hk : k ∈ ds ∧ (dbLookup k).isSome = true
    · rw [if_pos hk, if_pos ⟨List.mem_cons_of_mem d hk.1, hk.2⟩]
    · rw [if_neg hk]
      cases hd : dbLookup d with
      | none =>
        dsimp only
        by_cases hkd : k = d
        · subst hkd
          rw [if_neg fun hc => by simp [hd] at hc]
        · rw [if_neg fun hc => hk ⟨(List.mem_cons.mp hc.1).resolve_left hkd, hc.2⟩]
      | some r =>
        dsimp only
        rw [lookupDict_dictInsert]
        by_cases hkd : k = d
        · subst hkd
          rw [if_pos rfl, if_pos ⟨List.mem_cons_self _ _, by simp [hd]⟩, hd]
          rfl
        · rw [if_neg hkd,
            if_neg fun hc => hk ⟨(List.mem_cons.mp hc.1).resolve_left hkd, hc.2⟩]

lemma lookupDict_dosage (drugs : List String) (age : Int) (k : String) :
    lookupDict (dosage_suggestions drugs age) k =
      if k ∈ drugs ∧ (dbLookup k).isSome = true then
        (dbLookup k).map fun r => if age < 18 then r.dosage_child else r.dosage_adult
      else none := by
  have h := lookup_kbFold
    (fun _ r => if age < 18 then r.dosage_child else r.dosage_adult) drugs [] k
  simpa [dosage_suggestions, lookupDict_nil] using h

lemma lookupDict_alternatives (drugs : List String) (k : String) :
    lookupDict (alternatives_for drugs) k =
      if k ∈ drugs ∧ (dbLookup k).isSome = true then
        (dbLookup k).map fun r =>
          match r.alternative with
          | some a => if a == "" then "No alternative" else a
          | none => "No alternative"
      else none := by
  have h := lookup_kbFold
    (fun _ r =>
      match r.alternative with
      | some a => if a == "" then "No alternative" else a
      | none => "No alternative") drugs [] k
  simpa [alternatives_for, lookupDict_nil] using h

lemma filterMap_getD_range {β : Type} (l : List String) (f : String → Option β)
    (dflt : String) :
    (List.range l.length).filterMap (fun j => f (l.getD j dflt)) = l.filterMap f := by
  induction l with
  | nil => rfl
  | cons a l ih =>
    simp only [List.length_cons, List.range_succ_eq_map, List.filterMap_cons,
      List.filterMap_map, Function.comp_def, List.getD_cons_succ, List.getD_cons_zero]
    cases hfa : f a <;> simp only [hfa] <;>
      [exact ih; exact congrArg (List.cons _) ih]

lemma find_interactions_cons (d : String) (ds : List String) :
    find_interactions (d :: ds) =
      (ds.filterMap fun e => (ruleFor d e).map fun desc =>
        d ++ " + " ++ e ++ " → " ++ desc) ++ find_interactions ds := by
  unfold find_interactions
  simp only [List.length_cons, List.range_succ_eq_map, List.flatMap_cons,
    List.flatMap_map, List.drop_succ_cons, List.drop_zero, ← List.map_drop,
    List.filterMap_map, List.getD_cons_succ, List.getD_cons_zero]
  congr 1
  exact filterMap_getD_range ds
    (fun e => (ruleFor d e).map fun desc => d ++ " + " ++ e ++ " → " ++ desc) ""

lemma find_interactions_eq_orderedPairs (ds : List String) :
    find_interactions ds = (orderedPairs ds).filterMap renderInteraction := by
  induction ds with
  | nil => rfl
  | cons d ds ih =>
    rw [find_interactions_cons, orderedPairs, List.filterMap_append,
      List.filterMap_map, ih]
    rfl

lemma dosage_suggestions_band_congr (drugs : List String) (a b : Int)
    (h : a < 18 ↔ b < 18) :
    dosage_suggestions drugs a = dosage_suggestions drugs b := by
  unfold dosage_suggestions
  congr 1
  funext out d
  cases dbLookup d with
  | none => rfl
  | some r =>
    dsimp only
    by_cases ha : a < 18
    · rw [if_pos ha, if_pos (h.mp ha)]
    · rw [if_neg ha, if_neg fun hb => ha (h.mpr hb)]

/-- C1 counterexample: the claim's own example fails on the code.  In
"Aspirin-like" the hyphen is not a regex word character, so
`\bAspirin\b` does match and "Aspirin" is extracted, contradicting
"must not be extracted". -/
theorem c1_counterexample :
    "Aspirin" ∈ extract_drugs "Aspirin-like" false ∧
      extract_drugs "Aspirin-like" false = ["Aspirin"] := by decide

/-- C1 (amended): for every text and every canonical KB drug name, the
name is extracted by `extract(T, false)` exactly when it occurs in the
text as a whole word in any letter casing, where a word boundary is the
string edge or a character that is not a word character (alphanumeric
or underscore); occurrences inside a longer alphanumeric/underscore
token are not extracted, but a hyphen does delimit a word. -/
theorem c1_extract_iff_word_occurrence (text drug : String)
    (h : drug ∈ kbKeys) :
    drug ∈ extract_drugs text false ↔ WordOccurs drug text := by
  rw [extract_false_eq, List.mem_filter]
  constructor
  · intro hh
    exact (foundWord_iff drug text).mp hh.2
  · intro hw
    exact ⟨h, (foundWord_iff drug text).mpr hw⟩

/-- C1 witness: instantiation at a concrete text and drug. -/
theorem c1_witness :
    ("Aspirin" : String) ∈ kbKeys ∧
      ("Aspirin" ∈ extract_drugs "take aspirin daily" false ↔
        WordOccurs "Aspirin" "take aspirin daily") :=
  ⟨by decide, c1_extract_iff_word_occurrence "take aspirin daily" "Aspirin" (by decide)⟩

/-- C2: rule-key matching is insensitive both to the order of the two
names inside the rule definition and to the order of the queried pair,
and `find_interactions` renders each matching pair with the lower-index
detected drug first, in i-then-j pair-enumeration order. -/
theorem c2_interactions_symmetric_and_ordered :
    (∀ a b x y : String, ruleMatches a b x y = ruleMatches b a x y ∧
      ruleMatches a b x y = ruleMatches a b y x) ∧
    ∀ drugs : List String,
      find_interactions drugs = (orderedPairs drugs).filterMap renderInteraction := by
  constructor
  · intro a b x y
    cases hax : (a == x) <;> cases hbx : (b == x) <;> cases hay : (a == y) <;>
      cases hby : (b == y) <;> simp [ruleMatches, hax, hbx, hay, hby]
  · exact find_interactions_eq_orderedPairs

/-- C3 counterexample: called directly with the out-of-range ages 0 and
121, `dosage_suggestions` raises nothing and returns ordinary band
results, while the spec-modelled contract demands an `InvalidAge`
rejection. -/
theorem c3_counterexample :
    dosage_suggestions ["Aspirin"] 0 = [("Aspirin", "Not recommended")] ∧
      dosage_suggestions ["Aspirin"] 121 = [("Aspirin", "75–325 mg/day")] ∧
      dosage_suggestions_checked ["Aspirin"] 0 = Except.error "InvalidAge" :=
  ⟨by decide, by decide, rfl⟩

/-- C3 (amended): called directly with an age outside [1,120], the
dosage resolver performs no validation and surfaces no `InvalidAge`:
it applies the `age < 18` band exactly as for in-range ages (so in
particular it does not clamp); range validation happens only in the
input provider. -/
theorem c3_no_age_validation (drugs : List String) (age : Int)
    (_h : age < 1 ∨ 120 < age) :
    dosage_suggestions drugs age =
      dosage_suggestions drugs (if age < 18 then 17 else 18) := by
  by_cases h18 : age < 18
  · rw [if_pos h18]
    exact dosage_suggestions_band_congr drugs age 17 (iff_of_true h18 (by norm_num))
  · rw [if_neg h18]
    exact dosage_suggestions_band_congr drugs age 18 (iff_of_false h18 (by norm_num))

/-- C3 witness: instantiation at age 0. -/
theorem c3_witness :
    ((0 : Int) < 1 ∨ (120 : Int) < 0) ∧
      dosage_suggestions ["Aspirin"] 0 =
        dosage_suggestions ["Aspirin"] (if (0 : Int) < 18 then 17 else 18) :=
  ⟨Or.inl (by norm_num), c3_no_age_validation ["Aspirin"] 0 (Or.inl (by norm_num))⟩

/-- C4 counterexample: in "Ibuprofen then Aspirin" the name "Ibuprofen"
occurs first (position 0, versus 15 for "Aspirin"), yet the extractor
returns ["Aspirin", "Ibuprofen"] — KB enumeration order, not
first-occurrence order. -/
theorem c4_counterexample :
    extract_drugs "Ibuprofen then Aspirin" false = ["Aspirin", "Ibuprofen"] ∧
      firstOccPos "Ibuprofen" "Ibuprofen then Aspirin" <
        firstOccPos "Aspirin" "Ibuprofen then Aspirin" := by decide

/-- C4 (amended): for every input text the extracted list follows KB
enumeration order (Aspirin, Paracetamol, Ibuprofen) — it is exactly the
KB key list filtered by whole-word occurrence — with the alcohol
sentinel, when flagged, appended last. -/
theorem c4_kb_enumeration_order (text : String) :
    extract_drugs text false = kbKeys.filter (fun d => foundWord d text) ∧
      extract_drugs text true =
        kbKeys.filter (fun d => foundWord d text) ++ ["Alcohol"] :=
  ⟨extract_false_eq text, extract_true_eq text⟩

/-- C5: for every text, `extract(T, true)` is non-empty, ends with the
literal "Alcohol", and with its last element removed equals
`extract(T, false)`. -/
theorem c5_alcohol_sentinel (text : String) :
    extract_drugs text true ≠ [] ∧
      (extract_drugs text true).getLast? = some "Alcohol" ∧
      (extract_drugs text true).dropLast = extract_drugs text false := by
  rw [extract_true_eq, extract_false_eq]
  exact ⟨by simp, List.getLast?_concat _, List.dropLast_concat⟩

/-- C6: the dosage resolver selects the pediatric text when `age < 18`
and the adult text when `age ≥ 18`, for every detected KB drug; in
particular age 17 for Aspirin gives "Not recommended" and age 18 gives
"75–325 mg/day". -/
theorem c6_dosage_age_band :
    (∀ (drugs : List String) (age : Int) (d : String) (r : DrugRecord),
        d ∈ drugs → dbLookup d = some r →
        lookupDict (dosage_suggestions drugs age) d =
          some (if age < 18 then r.dosage_child else r.dosage_adult)) ∧
      dosage_suggestions ["Aspirin"] 17 = [("Aspirin", "Not recommended")] ∧
      dosage_suggestions ["Aspirin"] 18 = [("Aspirin", "75–325 mg/day")] := by
  refine ⟨?_, by decide, by decide⟩
  intro drugs age d r hd hr
  rw [lookupDict_dosage, if_pos ⟨hd, by rw [hr]; rfl⟩, hr]
  rfl

/-- C6 witness: instantiation at Aspirin and adult age 30. -/
theorem c6_witness :
    ("Aspirin" : String) ∈ ["Aspirin"] ∧
      lookupDict (dosage_suggestions ["Aspirin"] 30) "Aspirin" =
        some "75–325 mg/day" := by
  refine ⟨by decide, ?_⟩
  have h := c6_dosage_age_band.1 ["Aspirin"] 30 "Aspirin"
    { dosage_child := "Not recommended", dosage_adult := "75–325 mg/day",
      alternative := some "Clopidogrel" } (by decide) (by decide)
  rw [if_neg (by norm_num)] at h
  exact h

/-- C7: any detected name absent from the KB (such as the "Alcohol"
sentinel) produces no entry in either result mapping and raises no
error: every entry of the dosage or alternatives mapping has a key that
is a member of the detected list and present in the KB. -/
theorem c7_unknown_names_omitted (drugs : List String) (age : Int)
    (p : String × String) :
    (p ∈ dosage_suggestions drugs age →
      p.1 ∈ drugs ∧ (dbLookup p.1).isSome = true) ∧
    (p ∈ alternatives_for drugs →
      p.1 ∈ drugs ∧ (dbLookup p.1).isSome = true) := by
  constructor
  · intro hp
    have h := lookupDict_isSome_of_mem _ _ hp
    rw [lookupDict_dosage] at h
    by_cases hc : p.1 ∈ drugs ∧ (dbLookup p.1).isSome = true
    · exact hc
    · rw [if_neg hc] at h
      simp at h
  · intro hp
    have h := lookupDict_isSome_of_mem _ _ hp
    rw [lookupDict_alternatives] at h
    by_cases hc : p.1 ∈ drugs ∧ (dbLookup p.1).isSome = true
    · exact hc
    · rw [if_neg hc] at h
      simp at h

/-- C7 witness: the Paracetamol entry of a run with the alcohol
sentinel present. -/
theorem c7_witness :
    (("Paracetamol", "10–15 mg/kg every 4–6h") ∈
        dosage_suggestions ["Paracetamol", "Alcohol"] 10) ∧
      ("Paracetamol", "10–15 mg/kg every 4–6h").1 ∈ ["Paracetamol", "Alcohol"] ∧
      (dbLookup ("Paracetamol", "10–15 mg/kg every 4–6h").1).isSome = true :=
  ⟨by decide,
    (c7_unknown_names_omitted ["Paracetamol", "Alcohol"] 10 _).1 (by decide)⟩

/-- C8: for every text and flag, the extracted list has no duplicate
element, and it is the first-occurrence-preserving deduplication of the
raw match list. -/
theorem c8_no_duplicates (text : String) (flag : Bool) :
    (extract_drugs text flag).Nodup ∧
      extract_drugs text flag = keepFirst (rawFound text flag) := by
  have hnd := rawFound_nodup text flag
  rw [extract_eq_rawFound]
  exact ⟨hnd, (keepFirst_eq_self _ hnd).symm⟩

/-- C9: extraction is idempotent on its own output: re-extracting from
the space-separated concatenation of the detected names returns the
same list (hence the same set). -/
theorem c9_extract_idempotent (text : String) :
    extract_drugs (String.intercalate " " (extract_drugs text false)) false =
      extract_drugs text false := by
  rw [extract_false_eq text]
  cases ha : foundWord "Aspirin" text <;> cases hp : foundWord "Paracetamol" text <;>
    cases hi : foundWord "Ibuprofen" text <;>
      simp [kbKeys_eq, ha, hp, hi] <;> decide

/-- C10: every element of any extracted list is either a KB key in its
exact canonical casing or the literal "Alcohol". -/
theorem c10_canonical_output (text : String) (flag : Bool) (d : String)
    (h : d ∈ extract_drugs text flag) : d ∈ kbKeys ∨ d = "Alcohol" := by
  cases flag with
  | false =>
    rw [extract_false_eq] at h
    exact Or.inl (List.mem_of_mem_filter h)
  | true =>
    rw [extract_true_eq] at h
    rcases List.mem_append.mp h with h1 | h2
    · exact Or.inl (List.mem_of_mem_filter h1)
    · exact Or.inr (List.mem_singleton.mp h2)

/-- C10 witness: lowercase input still yields the canonical casing. -/
theorem c10_witness :
    ("Aspirin" : String) ∈ extract_drugs "aspirin now" false ∧
      (("Aspirin" : String) ∈ kbKeys ∨ ("Aspirin" : String) = "Alcohol") :=
  ⟨by decide, c10_canonical_output "aspirin now" false "Aspirin" (by decide)⟩
